import Mathlib

/-!
Verification development for the Jærligaen table generator
(`tabell_generator.py`).

Modelling conventions (shallow embedding):
* Python strings are modelled as `List Char` (`PyStr`): Python's `str` is a
  sequence of code points, so list operations model its methods faithfully.
* Python dicts are modelled as insertion-ordered association lists with
  unique keys; `dict[k] = v` keeps the original position of an existing key
  (`dictInsert`), matching CPython semantics.
* A pandas DataFrame indexed by player is modelled as a list of rows in
  index order; derived metric columns are modelled as functions of a row.
* HTML documents are modelled at the granularity the parser actually
  inspects: a table is a list of rows, a row a list of cells, a cell its
  whitespace-stripped text (`get_text(strip=True)`) plus its first anchor
  (`find("a", href=True)`), if any.  BeautifulSoup's table locators
  (`LabPast`, `LabTitle`, fallback search) are abstracted as "the located
  table"; the row-level processing is translated statement by statement.
* `float` averages are modelled in exact rational arithmetic `ℚ`;
  `round(x, 2)` is modelled by round-half-to-even on `100 * x`.
-/

namespace Tabell

/-- Python strings as lists of characters. -/
abbrev PyStr := List Char

/-! ## Configuration constants (`tabell_generator.py`, lines 16-23) -/

/-- How many results count in "Topp 17" (`TOP_N = 17`). -/
def TOP_N : Nat := 17

/-- The dict literal `PLACEMENT_TO_VALUE` mapping finishing place to
points value (keys 1..50), as an association list. -/
def PLACEMENT_TO_VALUE_entries : List (Int × Nat) :=
  [(1, 100), (2, 85), (3, 75), (4, 65), (5, 60), (6, 55), (7, 50), (8, 48),
   (9, 46), (10, 44), (11, 42), (12, 40), (13, 39), (14, 38), (15, 37),
   (16, 36), (17, 35), (18, 34), (19, 33), (20, 32), (21, 31), (22, 30),
   (23, 29), (24, 28), (25, 27), (26, 26), (27, 25), (28, 24), (29, 23),
   (30, 22), (31, 21), (32, 20), (33, 19), (34, 18), (35, 17), (36, 16),
   (37, 15), (38, 14), (39, 13), (40, 12), (41, 11), (42, 10), (43, 9),
   (44, 8), (45, 7), (46, 6), (47, 5), (48, 4), (49, 3), (50, 2)]

/-- `PLACEMENT_TO_VALUE.get(place, 0)`, the only way the code reads the
dict: the table value for keys 1..50 and `0` for any other placement. -/
def PLACEMENT_TO_VALUE (p : Int) : Nat :=
  (PLACEMENT_TO_VALUE_entries.lookup p).getD 0

/-! ## Python string primitives used by the parsers -/

/-- Model of `s.rstrip(".")`: remove all trailing period characters. -/
def rstripDots (s : PyStr) : PyStr :=
  (s.reverse.dropWhile (fun c => c = '.')).reverse

/-- Model of `s.isdigit()` for ASCII text: nonempty and all digits. -/
def isdigitStr (s : PyStr) : Bool :=
  !s.isEmpty && s.all (fun c => c.isDigit)

/-- Decimal value of a digit string. -/
def digitsToNat (s : PyStr) : Nat :=
  s.foldl (fun acc c => acc * 10 + (c.toNat - 48)) 0

/-- Model of Python `int(s)` on already-stripped text: an optional sign
followed by decimal digits; anything else raises, modelled as `none`. -/
def pyInt (s : PyStr) : Option Int :=
  match s with
  | '-' :: rest => if isdigitStr rest then some (-(digitsToNat rest : Int)) else none
  | '+' :: rest => if isdigitStr rest then some ((digitsToNat rest : Int)) else none
  | _ => if isdigitStr s then some ((digitsToNat s : Int)) else none

/-- Model of `" ".join(s.split())`: collapse whitespace runs to single
spaces and trim the ends (the player-name normalisation). -/
def normWS (s : PyStr) : PyStr :=
  List.intercalate [' ']
    ((s.splitOnP (fun c => c.isWhitespace)).filter (fun w => !w.isEmpty))

/-- ASCII lowercasing of one character (`str.lower` restricted to the ASCII
range, which covers the URLs the code inspects). -/
def lowerAscii (c : Char) : Char :=
  if 65 ≤ c.toNat ∧ c.toNat ≤ 90 then Char.ofNat (c.toNat + 32) else c

/-- Whether `pat` is a prefix of `s` (helper for substring search). -/
def startMatch : PyStr → PyStr → Bool
  | [], _ => true
  | _ :: _, [] => false
  | c :: cs, d :: ds => c = d && startMatch cs ds

/-- Model of Python `pat in s` (contiguous substring containment). -/
def occursIn (pat : PyStr) : PyStr → Bool
  | [] => startMatch pat []
  | d :: ds => startMatch pat (d :: ds) || occursIn pat ds

/-! ## Dates (`datetime.strptime(text, "%d.%m.%Y").date()`) -/

/-- Gregorian leap-year rule, as implemented by `datetime`. -/
def isLeapYear (y : Nat) : Bool :=
  (y % 4 == 0 && y % 100 != 0) || y % 400 == 0

/-- Number of days in a month, used by `datetime`'s validity check. -/
def daysInMonth (y m : Nat) : Nat :=
  if m = 2 then (if isLeapYear y then 29 else 28)
  else if m = 4 ∨ m = 6 ∨ m = 9 ∨ m = 11 then 30 else 31

/-- Model of `datetime.strptime(s, "%d.%m.%Y").date()`: day (1-2 digits),
a period, month (1-2 digits), a period, year (up to 4 digits), consuming
the whole string, with calendar validity checked; a failure raises
`ValueError`, modelled as `none`.  The resulting date is encoded as the
natural number `y * 10000 + m * 100 + d`, whose order coincides with the
order on `datetime.date` (and with the lexicographic order on the ISO
strings the program later stores). -/
def strptimeDMY (s : PyStr) : Option Nat :=
  match s.splitOnP (fun c => c = '.') with
  | [d, m, y] =>
    if isdigitStr d ∧ d.length ≤ 2 ∧ isdigitStr m ∧ m.length ≤ 2
        ∧ isdigitStr y ∧ y.length ≤ 4 then
      let dn := digitsToNat d
      let mn := digitsToNat m
      let yn := digitsToNat y
      if 1 ≤ yn ∧ 1 ≤ mn ∧ mn ≤ 12 ∧ 1 ≤ dn ∧ dn ≤ daysInMonth yn mn then
        some (yn * 10000 + mn * 100 + dn)
      else none
    else none
  | _ => none

/-! ## Document model shared by both parsers -/

/-- An anchor `<a href=...>`: its stripped text and its `href` value. -/
structure ALink where
  text : PyStr
  href : PyStr
deriving DecidableEq, Repr

/-! ## ScheduleParser: `extract_series_tournaments` (lines 85-136) -/

/-- One `<td>` of a schedule row: its stripped text, and the first
`<a href=...>` inside it if any (`cols[1].find("a", href=True)`). -/
structure SCell where
  text : PyStr
  link : Option ALink
deriving DecidableEq, Repr

/-- A schedule-table row: its list of `<td>` cells. -/
abbrev SRow := List SCell

/-- One tournament returned by the schedule parser
(`{'date': date, 'name': str, 'url': str}`; `urljoin` is abstracted: the
`url` field holds the resolved reference, which no claim inspects). -/
structure SchedTournament where
  date : Nat
  name : PyStr
  url : PyStr
deriving DecidableEq, Repr

/-- The body of the row loop in `extract_series_tournaments`: rows with
fewer than two cells are skipped, then the first cell's text must parse as
a `%d.%m.%Y` date, the date must lie in the inclusive range, and the
second cell must contain a link; otherwise the row is skipped (`continue`). -/
def parseScheduleRow (startD endD : Nat) (row : SRow) : Option SchedTournament :=
  match row with
  | c0 :: c1 :: _ =>
    match strptimeDMY c0.text with
    | none => none
    | some d =>
      if startD ≤ d ∧ d ≤ endD then
        match c1.link with
        | none => none
        | some a => some { date := d, name := a.text, url := a.href }
      else none
  | _ => none

/-- Ascending-by-date relation used by `tournaments.sort(key=lambda t: t["date"])`. -/
def schedDateLe (a b : SchedTournament) : Prop := a.date ≤ b.date

instance : DecidableRel schedDateLe := fun a b => Nat.decLe a.date b.date

instance : IsTotal SchedTournament schedDateLe := ⟨fun a b => Nat.le_total a.date b.date⟩

instance : IsTrans SchedTournament schedDateLe := ⟨fun _ _ _ h1 h2 => Nat.le_trans h1 h2⟩

/-- Model of `extract_series_tournaments` given the located `#LabPast`
table (the network fetch and the `LabPast` locator with its fatal
`RuntimeError`s are external to the claims).  The date-range strings are
parsed first (`strptime` raising on bad format), `start > end` raises
`ValueError`, the first table row is skipped whenever there is more than
one row (`rows[1:] if len(rows) > 1 else rows`), each remaining row goes
through `parseScheduleRow`, and the survivors are sorted ascending by date. -/
def extract_series_tournaments (table : List SRow) (startStr endStr : PyStr) :
    Except PyStr (List SchedTournament) :=
  match strptimeDMY startStr with
  | none => Except.error ("time data does not match format".data)
  | some s =>
    match strptimeDMY endStr with
    | none => Except.error ("time data does not match format".data)
    | some e =>
      if e < s then Except.error ("start_date must be on or before end_date".data)
      else
        let rows := if 1 < table.length then table.drop 1 else table
        Except.ok (List.insertionSort schedDateLe (rows.filterMap (parseScheduleRow s e)))

/-! ## ResultTableParser: `extract_tournament_results` (lines 139-217) -/

/-- One `<td>` of a result row: its stripped text, the first `<a href=...>`
inside it (`td.find("a", href=True)`), and whether its class list contains
the exact class `"head"`. -/
structure RCell where
  text : PyStr
  link : Option ALink
  hasHeadClass : Bool
deriving DecidableEq, Repr

/-- A result-table row: its cells plus whether the row contains an anchor
with id `LBPos` resp. `LBName` (the header heuristics search the whole
`<tr>`). -/
structure RRow where
  cells : List RCell
  hasLBPos : Bool
  hasLBName : Bool
deriving DecidableEq, Repr

/-- Header heuristic: a row with `<a id="LBPos">`, `<a id="LBName">`, or
any cell whose class list contains `"head"` is skipped. -/
def isHeaderRow (r : RRow) : Bool :=
  r.hasLBPos || r.hasLBName || r.cells.any (fun c => c.hasHeadClass)

/-- The `data_rows` selection: drop rows without cells, drop header rows. -/
def dataRows (rows : List RRow) : List RRow :=
  rows.filter (fun r => !r.cells.isEmpty && !isHeaderRow r)

/-- Placement extraction for one row: `int(cols[0].text.rstrip("."))`, and
on `ValueError` the fallback scans the first two cells for a text that
`isdigit()` after stripping trailing periods. -/
def parseRowPlace (cols : List RCell) : Option Int :=
  match cols with
  | c0 :: _ =>
    match pyInt (rstripDots c0.text) with
    | some p => some p
    | none =>
      match (cols.take 2).filterMap (fun td =>
          let t := rstripDots td.text
          if isdigitStr t then some ((digitsToNat t : Int)) else none) with
      | p :: _ => some p
      | [] => none
  | [] => none

/-- Player-link search: the first cell whose first anchor has an `href`
containing `"player.aspx"` case-insensitively. -/
def findPlayerLink (cols : List RCell) : Option ALink :=
  (cols.filterMap (fun td =>
    match td.link with
    | some a => if occursIn ("player.aspx".data) (a.href.map lowerAscii) then some a else none
    | none => none)).head?

/-- The body of the data-row loop: rows with fewer than two cells, rows
without a parsable placement, rows without a player link, and rows whose
player name is empty are skipped; otherwise the whitespace-normalised name
and the placement are recorded. -/
def parseResultRow (row : RRow) : Option (PyStr × Int) :=
  match row.cells with
  | c0 :: c1 :: rest =>
    match parseRowPlace (c0 :: c1 :: rest) with
    | none => none
    | some place =>
      match findPlayerLink (c0 :: c1 :: rest) with
      | none => none
      | some a =>
        if a.text.isEmpty then none
        else some (normWS a.text, place)
  | _ => none

/-- A Python dict `str → int` as an insertion-ordered association list
with unique keys. -/
abbrev PlacementMap := List (PyStr × Int)

/-- CPython dict assignment `m[k] = v`: an existing key keeps its
position and gets the new value, a new key is appended. -/
def dictInsert (m : PlacementMap) (k : PyStr) (v : Int) : PlacementMap :=
  if m.any (fun q => q.1 = k) then m.map (fun q => if q.1 = k then (k, v) else q)
  else m ++ [(k, v)]

/-- The accumulation loop of `extract_tournament_results` over the located
table's rows: `results[player_name] = place` for every parsable data row
(later rows overwrite earlier ones with the same normalised name). -/
def extractResultsFromTable (rows : List RRow) : PlacementMap :=
  (dataRows rows).foldl (fun acc r =>
    match parseResultRow r with
    | some q => dictInsert acc q.1 q.2
    | none => acc) []

/-- Model of `extract_tournament_results` for one fetched page: the two
table locators (`LabTitle`/"Final table" and the `LBName`/"Player"
fallback) are abstracted as the located table; when both fail the function
raises `RuntimeError`, modelled as `Except.error`. -/
def extract_tournament_results (page : Option (List RRow)) :
    Except PyStr PlacementMap :=
  match page with
  | none => Except.error ("Finner ikke resultat-tabell".data)
  | some rows => Except.ok (extractResultsFromTable rows)

/-! ## StandingsAggregator: matrix construction shared by
`build_results_dataframe` (lines 222-359) and
`build_df_from_tournament_data` (lines 362-436) -/

/-- First-seen order of player names across the season's result maps, as
produced by `all_points.setdefault(player, {})` iterating tournaments in
order (dict-of-dicts row order in `pd.DataFrame.from_dict(orient="index")`). -/
def collectPlayers (rs : List PlacementMap) : List PyStr :=
  rs.foldl (fun acc r =>
    r.foldl (fun acc2 q => if acc2.any (fun n => n = q.1) then acc2 else acc2 ++ [q.1]) acc) []

/-- The points row of one player after column reordering and `fillna(0)`:
per tournament, `PLACEMENT_TO_VALUE.get(place, 0)` where the player
appears, `0` where they do not. -/
def playerPoints (rs : List PlacementMap) (name : PyStr) : List Nat :=
  rs.map (fun r =>
    match r.lookup name with
    | some place => PLACEMENT_TO_VALUE place
    | none => 0)

/-- The placements row of one player (`plc_df`, `NaN` kept as `none`). -/
def playerPlaces (rs : List PlacementMap) (name : PyStr) : List (Option Int) :=
  rs.map (fun r => r.lookup name)

/-- One row of the standings matrix: the player's name and their
per-tournament points and placements vectors. -/
structure PlayerRow where
  name : PyStr
  points : List Nat
  places : List (Option Int)
deriving DecidableEq, Repr

/-- The unsorted standings matrix: one row per collected player. -/
def buildRows (rs : List PlacementMap) : List PlayerRow :=
  (collectPlayers rs).map (fun n => ⟨n, playerPoints rs n, playerPlaces rs n⟩)

/-! ## Per-player metrics (identical helper functions in both builders) -/

/-- `count_played`: number of strictly positive scores (`(row > 0).sum()`). -/
def count_played (pts : List Nat) : Nat :=
  (pts.filter (fun v => 0 < v)).length

/-- Descending order on `Nat`, the comparison used by
`sorted(..., reverse=True)`. -/
def natGe (a b : Nat) : Prop := b ≤ a

instance : DecidableRel natGe := fun a b => Nat.decLe b a

instance : IsTotal Nat natGe := ⟨fun a b => Nat.le_total b a⟩

instance : IsTrans Nat natGe := ⟨fun _ _ _ h1 h2 => Nat.le_trans h2 h1⟩

/-- `sorted(vals, reverse=True)` on naturals. -/
def sortDescNat (l : List Nat) : List Nat := List.insertionSort natGe l

/-- `top_n_sum`: sum of the first `n` entries of the descending sort of
the strictly positive scores. -/
def top_n_sum (pts : List Nat) (n : Nat) : Nat :=
  ((sortDescNat (pts.filter (fun v => 0 < v))).take n).sum

/-- Round-half-to-even on a rational, the behaviour of Python `round` at
integer targets (exact-rational model of the `float` computation). -/
def roundHalfEven (q : ℚ) : Int :=
  let f : Int := ⌊q⌋
  let r : ℚ := q - (f : ℚ)
  if r < 1 / 2 then f
  else if 1 / 2 < r then f + 1
  else if f % 2 = 0 then f else f + 1

/-- Model of `round(x, 2)`. -/
def pyRound2 (q : ℚ) : ℚ := ((roundHalfEven (q * 100) : Int) : ℚ) / 100

/-- `avg_points_when_played`: mean of the strictly positive scores rounded
to two decimals, `0.0` when there are none. -/
def avg_points_when_played (pts : List Nat) : ℚ :=
  if (pts.filter (fun v => 0 < v)).isEmpty then 0
  else pyRound2 (((pts.filter (fun v => 0 < v)).sum : ℚ) /
    ((pts.filter (fun v => 0 < v)).length : ℚ))

/-- `count_wins`: placements equal to 1 (`(row == 1).sum()`; `NaN` never
equals 1). -/
def count_wins (places : List (Option Int)) : Nat :=
  (places.filter (fun q => q = some 1)).length

/-- `count_podiums`: placements at most 3 (`(row <= 3).sum()`; comparisons
with `NaN` are false). -/
def count_podiums (places : List (Option Int)) : Nat :=
  (places.filter (fun q =>
    match q with
    | some x => decide (x ≤ 3)
    | none => false)).length

/-- `df[league_cols].max(axis=1)`: the best single-tournament score. -/
def best_single (pts : List Nat) : Nat := pts.foldl max 0

/-- `Tellende` in `build_results_dataframe`: `df["Spilt"].clip(upper=TOP_N)`. -/
def tellende_clip (spilt : Nat) : Nat := if TOP_N < spilt then TOP_N else spilt

/-- `Tellende` in `build_df_from_tournament_data`: `min(r["Spilt"], TOP_N)`. -/
def tellende_min (spilt : Nat) : Nat := min spilt TOP_N

/-! ## RankingEngine: the two `sort_values` calls and the `Rank` column -/

/-- The sort key of `build_results_dataframe` (line 342):
`["Topp 17", "Seire", "_best_single", "Snitt"]`, all descending, compared
lexicographically. -/
def keyFull (r : PlayerRow) : Lex (Nat × Lex (Nat × Lex (Nat × ℚ))) :=
  toLex (top_n_sum r.points TOP_N,
    toLex (count_wins r.places,
      toLex (best_single r.points, avg_points_when_played r.points)))

/-- Row `a` sorts no later than row `b` under the full-rebuild key
(descending, hence the swap). -/
def rowGeFull (a b : PlayerRow) : Prop := keyFull b ≤ keyFull a

instance : DecidableRel rowGeFull := fun a b =>
  inferInstanceAs (Decidable (keyFull b ≤ keyFull a))

instance : IsTotal PlayerRow rowGeFull := ⟨fun a b => le_total (keyFull b) (keyFull a)⟩

instance : IsTrans PlayerRow rowGeFull := ⟨fun _ _ _ h1 h2 => le_trans h2 h1⟩

/-- The sort key of `build_df_from_tournament_data` (lines 427-428):
`["Topp 17", "Seire"] + league_cols`, all descending; the league columns
compare as the lexicographic order on the points vector. -/
def keyIncr (r : PlayerRow) : Lex (Nat × Lex (Nat × List Nat)) :=
  toLex (top_n_sum r.points TOP_N, toLex (count_wins r.places, r.points))

/-- Row `a` sorts no later than row `b` under the incremental key. -/
def rowGeIncr (a b : PlayerRow) : Prop := keyIncr b ≤ keyIncr a

instance : DecidableRel rowGeIncr := fun a b =>
  inferInstanceAs (Decidable (keyIncr b ≤ keyIncr a))

instance : IsTotal PlayerRow rowGeIncr := ⟨fun a b => le_total (keyIncr b) (keyIncr a)⟩

instance : IsTrans PlayerRow rowGeIncr := ⟨fun _ _ _ h1 h2 => le_trans h2 h1⟩

/-- `df.insert(0, "Rank", range(1, len(df) + 1))`: pair each sorted row
with its 1-based position. -/
def addRank (rows : List PlayerRow) : List (Nat × PlayerRow) :=
  (List.range' 1 rows.length).zip rows

/-- The aggregation-and-ranking core of `build_results_dataframe`, taking
the per-tournament result maps in the (already date-sorted) order produced
by `extract_series_tournaments`. -/
def build_results_table (rs : List PlacementMap) : List (Nat × PlayerRow) :=
  addRank (List.insertionSort rowGeFull (buildRows rs))

/-! ## The incremental builder `build_df_from_tournament_data` -/

/-- One persisted tournament record (an entry of `tournaments.json`).  The
stored ISO date string is encoded as in `strptimeDMY`; comparison of ISO
strings is lexicographic, which coincides with this numeric encoding. -/
structure TournamentData where
  date : Nat
  name : PyStr
  url : PyStr
  results : PlacementMap
deriving DecidableEq, Repr

/-- Ascending-by-date relation used by
`sorted(tournaments, key=lambda t: t["date"])`. -/
def tdataDateLe (a b : TournamentData) : Prop := a.date ≤ b.date

instance : DecidableRel tdataDateLe := fun a b => Nat.decLe a.date b.date

instance : IsTotal TournamentData tdataDateLe := ⟨fun a b => Nat.le_total a.date b.date⟩

instance : IsTrans TournamentData tdataDateLe := ⟨fun _ _ _ h1 h2 => Nat.le_trans h1 h2⟩

/-- `tournaments_sorted = sorted(tournaments, key=lambda t: t["date"])`
(line 368): the records are date-sorted before ordinal columns `#1..#N`
are assigned. -/
def sortTournaments (ts : List TournamentData) : List TournamentData :=
  List.insertionSort tdataDateLe ts

/-- The aggregation-and-ranking core of `build_df_from_tournament_data`:
sort the records by date, build the matrix from their result maps in that
order, sort the rows by the incremental key, and add the `Rank` column. -/
def build_df_from_tournament_data (ts : List TournamentData) : List (Nat × PlayerRow) :=
  addRank (List.insertionSort rowGeIncr
    (buildRows ((sortTournaments ts).map (fun t => t.results))))

/-! ## Per-tournament summary stats -/

/-- The per-tournament stats recorded in `t_meta`. -/
structure TMeta where
  participants : Nat
  winner : PyStr
  winner_points : Nat
deriving DecidableEq, Repr

/-- The winner-selection loop of `build_results_dataframe` (lines 275-278):
start from `winner_name, winner_place = None, math.inf` and keep the first
entry with a strictly smaller placement. -/
def winnerFold (results : PlacementMap) : Option (PyStr × Int) :=
  results.foldl (fun acc q =>
    match acc with
    | none => some q
    | some w => if q.2 < w.2 then some q else acc) none

/-- The per-tournament stats of `build_results_dataframe` (lines 272-289):
`participants = len(results)`, `winner = winner_name or "-"`,
`winner_points = PLACEMENT_TO_VALUE.get(winner_place, 0)` (the `get`
returns 0 when `winner_place` is still `math.inf`). -/
def tournamentStats (results : PlacementMap) : TMeta :=
  match winnerFold results with
  | none => ⟨results.length, ("-".data), 0⟩
  | some w => ⟨results.length, (if w.1.isEmpty then ("-".data) else w.1), PLACEMENT_TO_VALUE w.2⟩

/-- The winner selection in `main`'s scrape loop (line 1271):
`min(results.items(), key=lambda kv: kv[1])`, which raises `ValueError` on
an empty dict, modelled as `Except.error`; ties keep the first item. -/
def main_winner_selection (results : PlacementMap) : Except PyStr (PyStr × Int) :=
  match results with
  | [] => Except.error ("min() arg is an empty sequence".data)
  | q :: rest => Except.ok (rest.foldl (fun acc w => if w.2 < acc.2 then w else acc) q)

/-! ## Concrete test inputs used by counterexamples and witnesses -/

instance : DecidableRel (fun (a b : Nat × PlayerRow) => rowGeFull a.2 b.2) :=
  fun a b => inferInstanceAs (Decidable (rowGeFull a.2 b.2))

instance : DecidableRel (fun (a b : Nat × PlayerRow) => rowGeIncr a.2 b.2) :=
  fun a b => inferInstanceAs (Decidable (rowGeIncr a.2 b.2))

/-- First tournament of the two-tournament season used against C1:
Anders places 12th (40 points), Bjarte 6th (55 points). -/
def cexT1 : TournamentData :=
  ⟨20020901, ("Liga 1".data), ("u1".data), [(("Anders".data), 12), (("Bjarte".data), 6)]⟩

/-- Second tournament: Anders places 4th (65 points), Bjarte 7th
(50 points).  Both players end with TopNSum 105 and 0 wins; Anders has the
better single score (65 > 55) but Bjarte the better first points column
(55 > 40). -/
def cexT2 : TournamentData :=
  ⟨20021001, ("Liga 2".data), ("u2".data), [(("Anders".data), 4), (("Bjarte".data), 7)]⟩

/-- Schedule row with a valid in-range date and a valid link, placed first
in the table (used against C9's "exactly the rows in range"). -/
def c9row1 : SRow :=
  [⟨("05.09.2002".data), none⟩, ⟨("x".data), some ⟨("Liga 1".data), ("t1.aspx".data)⟩⟩]

/-- Second schedule row, also valid and in range. -/
def c9row2 : SRow :=
  [⟨("12.10.2002".data), none⟩, ⟨("y".data), some ⟨("Liga 2".data), ("t2.aspx".data)⟩⟩]

/-- Result row whose first cell holds the token `"0"` and which has a
player link: the parser records placement 0 (used against C4). -/
def c4zeroRow : RRow :=
  ⟨[⟨("0".data), none, false⟩,
    ⟨("x".data), some ⟨("Nils Navn".data), ("player.aspx?id=7".data)⟩, false⟩], false, false⟩

/-- Result row with the ordinary positive token `"1."` (used by the C4
witness). -/
def c4posRow : RRow :=
  ⟨[⟨("1.".data), none, false⟩,
    ⟨("x".data), some ⟨("Kari Nordmann".data), ("player.aspx?id=2".data)⟩, false⟩], false, false⟩

/-! ## Helper lemmas -/

theorem addRank_map_fst (l : List PlayerRow) :
    (addRank l).map Prod.fst = List.range' 1 l.length := by
  unfold addRank
  exact List.map_fst_zip _ _ (by simp)

theorem addRank_map_snd (l : List PlayerRow) : (addRank l).map Prod.snd = l := by
  unfold addRank
  exact List.map_snd_zip _ _ (by simp)

theorem addRank_pairwise {r : PlayerRow → PlayerRow → Prop} {l : List PlayerRow}
    (h : l.Pairwise r) : (addRank l).Pairwise (fun a b => r a.2 b.2) := by
  have h2 : ((addRank l).map Prod.snd).Pairwise r := by rw [addRank_map_snd]; exact h
  exact List.pairwise_map.mp h2

theorem lookup_none_of_ne (p : Int) :
    ∀ l : List (Int × Nat), (∀ q ∈ l, q.1 ≠ p) → l.lookup p = none := by
  intro l
  induction l with
  | nil => intro _; rfl
  | cons q rest ih =>
    intro h
    have hk : q.1 ≠ p := h q (List.mem_cons_self _ _)
    obtain ⟨k, v⟩ := q
    simp only [List.lookup]
    rw [show (p == k) = false from beq_eq_false_iff_ne.mpr (Ne.symm hk)]
    exact ih (fun w hw => h w (List.mem_cons_of_mem _ hw))

theorem lookup_mem (p : Int) :
    ∀ {l : List (Int × Nat)} {v : Nat}, l.lookup p = some v → (p, v) ∈ l := by
  intro l
  induction l with
  | nil => intro v h; cases h
  | cons q rest ih =>
    intro v h
    obtain ⟨k, w⟩ := q
    simp only [List.lookup] at h
    cases hbe : (p == k) with
    | false =>
      rw [hbe] at h
      exact List.mem_cons_of_mem _ (ih h)
    | true =>
      rw [hbe] at h
      have hv : w = v := Option.some.inj h
      have hpk : p = k := by simpa using hbe
      rw [hpk, ← hv]
      exact List.mem_cons_self _ _

/-! ## C5: the points conversion -/

/-- C5: for every placement `p` with `1 ≤ p ≤ 50` the conversion returns
the fixed table value — anchored by `1 ↦ 100`, `2 ↦ 85`, `3 ↦ 75`,
`50 ↦ 2`, strictly positive and nonincreasing across the range — and for
every `p < 1` or `p > 50` it returns `0`; as a total function of the
placement it has no side effects and no failure mode. -/
theorem points_conversion_table :
    PLACEMENT_TO_VALUE 1 = 100 ∧ PLACEMENT_TO_VALUE 2 = 85 ∧
    PLACEMENT_TO_VALUE 3 = 75 ∧ PLACEMENT_TO_VALUE 50 = 2 ∧
    (∀ p : Int, p < 1 ∨ 50 < p → PLACEMENT_TO_VALUE p = 0) ∧
    (∀ p : Int, 1 ≤ p → p ≤ 50 → 0 < PLACEMENT_TO_VALUE p) ∧
    (∀ p : Int, 1 ≤ p → p < 50 → PLACEMENT_TO_VALUE (p + 1) ≤ PLACEMENT_TO_VALUE p) := by
  refine ⟨by decide, by decide, by decide, by decide, ?_, ?_, ?_⟩
  · intro p hp
    have hb : ∀ q ∈ PLACEMENT_TO_VALUE_entries, 1 ≤ q.1 ∧ q.1 ≤ 50 := by decide
    unfold PLACEMENT_TO_VALUE
    rw [lookup_none_of_ne p _ (fun q hq => by have := hb q hq; omega)]
    rfl
  · intro p h1 h2
    have hpos : ∀ q ∈ PLACEMENT_TO_VALUE_entries, 0 < q.2 := by decide
    have hkeys : ∀ n ∈ List.range' 1 50,
        (PLACEMENT_TO_VALUE_entries.lookup ((n : Nat) : Int)).isSome := by decide
    unfold PLACEMENT_TO_VALUE
    rcases hl : PLACEMENT_TO_VALUE_entries.lookup p with _ | v
    · exfalso
      have hpn : ((p.toNat : Nat) : Int) = p := Int.toNat_of_nonneg (by omega)
      have hmem : p.toNat ∈ List.range' 1 50 := by
        rw [List.mem_range'_1]
        omega
      have hsome := hkeys p.toNat hmem
      rw [hpn, hl] at hsome
      simp at hsome
    · exact hpos (p, v) (lookup_mem p hl)
  · intro p h1 h2
    have hmono : ∀ n ∈ List.range' 1 49,
        PLACEMENT_TO_VALUE (((n : Nat) : Int) + 1) ≤ PLACEMENT_TO_VALUE ((n : Nat) : Int) := by
      decide
    have hpn : ((p.toNat : Nat) : Int) = p := Int.toNat_of_nonneg (by omega)
    have hmem : p.toNat ∈ List.range' 1 49 := by
      rw [List.mem_range'_1]
      omega
    rw [← hpn]
    exact hmono p.toNat hmem

/-- Witness for C5 at concrete placements. -/
theorem points_conversion_table_witness :
    PLACEMENT_TO_VALUE 51 = 0 ∧ PLACEMENT_TO_VALUE 0 = 0 ∧
    0 < PLACEMENT_TO_VALUE 25 ∧ PLACEMENT_TO_VALUE 18 ≤ PLACEMENT_TO_VALUE 17 :=
  ⟨points_conversion_table.2.2.2.2.1 51 (by decide),
   points_conversion_table.2.2.2.2.1 0 (by decide),
   points_conversion_table.2.2.2.2.2.1 25 (by decide) (by decide),
   points_conversion_table.2.2.2.2.2.2 17 (by decide) (by decide)⟩

/-! ## C3: empty result maps -/

/-- C3 (code bug): on an empty placement map, the aggregation in
`build_results_dataframe` records `participants = 0`, `winner = "-"` and
`winner_points = 0` without raising, exactly as the claim states, but the
scrape loop in `main` computes `min(results.items(), key=...)` on the
empty dict and raises `ValueError` before any record is stored. -/
theorem empty_results_stats :
    tournamentStats [] = ⟨0, ("-".data), 0⟩ ∧
    main_winner_selection [] = Except.error ("min() arg is an empty sequence".data) :=
  ⟨rfl, rfl⟩

/-! ## C7: Tellende -/

/-- C7: both forms of the `Tellende` column — the `clip(upper=TOP_N)` of
the full rebuild and the `min(spilt, TOP_N)` of the incremental path —
equal `min(Played, TOP_N)`, hence never exceed `Played`. -/
theorem tellende_eq_min :
    ∀ pts : List Nat,
      tellende_clip (count_played pts) = min (count_played pts) TOP_N ∧
      tellende_min (count_played pts) = min (count_played pts) TOP_N ∧
      tellende_clip (count_played pts) ≤ count_played pts := by
  intro pts
  refine ⟨?_, rfl, ?_⟩
  · unfold tellende_clip
    rw [Nat.min_def]
    split_ifs <;> omega
  · unfold tellende_clip
    split_ifs <;> omega

/-! ## C6: Topp 17 -/

/-- C6: `top_n_sum` equals the sum of a block `taken` of `TOP_N` largest
values — `taken` together with the remaining values `rest` is a
permutation of the player's nonzero scores, `taken` has
`min TOP_N (number of nonzero scores)` elements and dominates every
element of `rest` — and when `Played ≤ TOP_N` it equals the sum of all
nonzero scores. -/
theorem top_n_sum_is_n_largest (pts : List Nat) :
    (∃ taken rest : List Nat,
        (pts.filter (fun v => 0 < v)).Perm (taken ++ rest) ∧
        taken.length = min TOP_N (pts.filter (fun v => 0 < v)).length ∧
        (∀ a ∈ taken, ∀ b ∈ rest, b ≤ a) ∧
        top_n_sum pts TOP_N = taken.sum) ∧
    (count_played pts ≤ TOP_N →
      top_n_sum pts TOP_N = (pts.filter (fun v => 0 < v)).sum) := by
  have hperm : (sortDescNat (pts.filter (fun v => 0 < v))).Perm
      (pts.filter (fun v => 0 < v)) :=
    List.perm_insertionSort natGe _
  have hsorted : List.Pairwise natGe (sortDescNat (pts.filter (fun v => 0 < v))) :=
    List.sorted_insertionSort natGe _
  constructor
  · refine ⟨(sortDescNat (pts.filter (fun v => 0 < v))).take TOP_N,
      (sortDescNat (pts.filter (fun v => 0 < v))).drop TOP_N, ?_, ?_, ?_, rfl⟩
    · rw [List.take_append_drop]
      exact hperm.symm
    · rw [List.length_take, hperm.length_eq]
    · rw [← List.take_append_drop TOP_N (sortDescNat (pts.filter (fun v => 0 < v)))]
        at hsorted
      exact (List.pairwise_append.mp hsorted).2.2
  · intro hle
    have hlen : (sortDescNat (pts.filter (fun v => 0 < v))).length ≤ TOP_N := by
      rw [hperm.length_eq]
      exact hle
    calc top_n_sum pts TOP_N
        = ((sortDescNat (pts.filter (fun v => 0 < v))).take TOP_N).sum := rfl
      _ = (sortDescNat (pts.filter (fun v => 0 < v))).sum := by
          rw [List.take_of_length_le hlen]
      _ = (pts.filter (fun v => 0 < v)).sum := hperm.sum_eq

/-- Witness for C6: the scenario row `[100, 85, 0]` has 2 played
tournaments, so its Topp-17 sum is the sum of all its nonzero scores. -/
theorem top_n_sum_is_n_largest_witness : top_n_sum [100, 85, 0] TOP_N = 185 :=
  ((top_n_sum_is_n_largest [100, 85, 0]).2 (by decide)).trans (by decide)

/-! ## C8: Snitt -/

/-- C8: `avg_points_when_played` is `0` for a player with no played
tournaments, and otherwise the mean of the strictly positive scores
rounded to two decimals (exact-rational model of the `float` arithmetic);
on the scenario scores `[100, 85, 0]` it equals `92.5`. -/
theorem avg_points_mean_rounded :
    (∀ pts : List Nat, count_played pts = 0 → avg_points_when_played pts = 0) ∧
    (∀ pts : List Nat, 0 < count_played pts →
      avg_points_when_played pts =
        pyRound2 (((pts.filter (fun v => 0 < v)).sum : ℚ) /
          ((pts.filter (fun v => 0 < v)).length : ℚ))) ∧
    avg_points_when_played [100, 85, 0] = 185 / 2 := by
  refine ⟨?_, ?_, ?_⟩
  · intro pts h
    have hnil : pts.filter (fun v => 0 < v) = [] := List.length_eq_zero.mp h
    unfold avg_points_when_played
    rw [hnil]
    rfl
  · intro pts h
    unfold avg_points_when_played
    rcases hf : pts.filter (fun v => 0 < v) with _ | ⟨a, rest⟩
    · rw [count_played, hf] at h
      cases h
    · rw [hf]
      rfl
  · have hf : ([100, 85, 0] : List Nat).filter (fun v => 0 < v) = [100, 85] := by decide
    unfold avg_points_when_played
    rw [hf]
    have hq : ((([100, 85] : List Nat).sum : Nat) : ℚ)
        / ((([100, 85] : List Nat).length : Nat) : ℚ) = 185 / 2 := by
      norm_num
    rw [show (([100, 85] : List Nat).isEmpty) = false from rfl]
    simp only [Bool.false_eq_true, if_false]
    rw [hq]
    unfold pyRound2 roundHalfEven
    norm_num

/-- Witness for C8 at the scenario row, with both hypotheses discharged. -/
theorem avg_points_mean_rounded_witness :
    avg_points_when_played [100, 85, 0] =
      pyRound2 ((((([100, 85, 0] : List Nat).filter (fun v => 0 < v)).sum : Nat) : ℚ) /
        (((([100, 85, 0] : List Nat).filter (fun v => 0 < v)).length : Nat) : ℚ)) :=
  avg_points_mean_rounded.2.1 [100, 85, 0] (by decide)

/-! ## C2: the Rank column -/

/-- C2: in both builders the `Rank` column is exactly `1..K` in sorted
order, `K` the number of distinct players, with no shared ranks even for
identical composite keys (`range(1, len(df)+1)` is attached positionally,
independent of key ties). -/
theorem rank_column_one_to_k :
    (∀ rs : List PlacementMap,
      (build_results_table rs).map Prod.fst =
        List.range' 1 (collectPlayers rs).length) ∧
    (∀ ts : List TournamentData,
      (build_df_from_tournament_data ts).map Prod.fst =
        List.range' 1 (collectPlayers ((sortTournaments ts).map (fun t => t.results))).length) := by
  constructor
  · intro rs
    rw [build_results_table, addRank_map_fst,
      (List.perm_insertionSort rowGeFull (buildRows rs)).length_eq,
      buildRows, List.length_map]
  · intro ts
    rw [build_df_from_tournament_data, addRank_map_fst,
      (List.perm_insertionSort rowGeIncr _).length_eq,
      buildRows, List.length_map]

/-! ## C1: the ranking keys of the two builders -/

/-- C1 (amended): the full-rebuild builder orders its rows nonascending by
the lexicographic key `(TopNSum, Wins, BestSingleTournamentScore,
AveragePoints)`, all descending, as the claim states; the incremental
builder instead orders its rows nonascending by `(TopNSum, Wins, points
of column #1, ..., points of column #N)`, all descending — its
tie-breakers after `Wins` are the per-column points, not the best single
score and the average. -/
theorem ranking_sort_keys :
    (∀ rs : List PlacementMap,
      List.Pairwise (fun (a b : Nat × PlayerRow) => rowGeFull a.2 b.2)
        (build_results_table rs)) ∧
    (∀ ts : List TournamentData,
      List.Pairwise (fun (a b : Nat × PlayerRow) => rowGeIncr a.2 b.2)
        (build_df_from_tournament_data ts)) := by
  constructor
  · intro rs
    exact addRank_pairwise (List.sorted_insertionSort rowGeFull (buildRows rs))
  · intro ts
    exact addRank_pairwise (List.sorted_insertionSort rowGeIncr _)

/-- C1 counterexample: on the concrete two-tournament season `cexT1`,
`cexT2`, the incremental builder's output is not ordered by the claimed
key — Anders has the higher best single score (65 against 55) at equal
TopNSum and Wins, yet Bjarte is placed first because his first points
column is higher. -/
theorem ranking_sort_keys_counterexample :
    ¬ List.Pairwise (fun (a b : Nat × PlayerRow) => rowGeFull a.2 b.2)
        (build_df_from_tournament_data [cexT1, cexT2]) := by
  decide

/-! ## C10: date sorting in the incremental builder -/

/-- C10: `build_df_from_tournament_data` sorts the supplied records by
date before assigning ordinal columns: for every input list — sorted or
not — the column order `sortTournaments ts` is nondecreasing in date and
is a permutation of the input, and the builder assigns the matrix columns
from exactly that order. -/
theorem columns_assigned_in_date_order :
    ∀ ts : List TournamentData,
      List.Pairwise tdataDateLe (sortTournaments ts) ∧
      (sortTournaments ts).Perm ts ∧
      build_df_from_tournament_data ts =
        addRank (List.insertionSort rowGeIncr
          (buildRows ((sortTournaments ts).map (fun t => t.results)))) :=
  fun ts => ⟨List.sorted_insertionSort tdataDateLe ts,
    List.perm_insertionSort tdataDateLe ts, rfl⟩

/-! ## C9: the schedule parser -/

theorem parseScheduleRow_range {startD endD : Nat} {row : SRow} {t : SchedTournament}
    (h : parseScheduleRow startD endD row = some t) :
    startD ≤ t.date ∧ t.date ≤ endD := by
  unfold parseScheduleRow at h
  split at h
  · split at h
    · exact absurd h (by simp)
    · split at h
      · split at h
        · exact absurd h (by simp)
        · obtain rfl := Option.some.inj h
          simp_all
      · exact absurd h (by simp)
  · exact absurd h (by simp)

/-- C9 (amended): for a well-formed date range, `extract_series_tournaments`
returns (without raising) the parseable in-range rows sorted nondecreasing
by date, every returned date lying in the inclusive range — except that the
first table row is unconditionally dropped as a presumed header whenever
the table has more than one row, even if it is a valid data row. -/
theorem schedule_extraction_range_sorted (table : List SRow) (startStr endStr : PyStr)
    (s e : Nat) (hs : strptimeDMY startStr = some s) (he : strptimeDMY endStr = some e)
    (hse : s ≤ e) :
    ∃ l, extract_series_tournaments table startStr endStr = Except.ok l ∧
      List.Pairwise schedDateLe l ∧
      l.Perm ((if 1 < table.length then table.drop 1 else table).filterMap
        (parseScheduleRow s e)) ∧
      (∀ t ∈ l, s ≤ t.date ∧ t.date ≤ e) := by
  have hok : extract_series_tournaments table startStr endStr =
      Except.ok (List.insertionSort schedDateLe
        ((if 1 < table.length then table.drop 1 else table).filterMap
          (parseScheduleRow s e))) := by
    unfold extract_series_tournaments
    simp only [hs, he]
    rw [if_neg (by omega : ¬ e < s)]
  refine ⟨_, hok, List.sorted_insertionSort _ _, List.perm_insertionSort _ _, ?_⟩
  intro t ht
  rw [List.mem_insertionSort] at ht
  obtain ⟨row, _, hparse⟩ := List.mem_filterMap.mp ht
  exact parseScheduleRow_range hparse

/-- Witness for C9 on a concrete one-row table and season range. -/
theorem schedule_extraction_range_sorted_witness :
    ∃ l, extract_series_tournaments [c9row1] ("01.07.2002".data) ("30.06.2003".data)
        = Except.ok l ∧
      List.Pairwise schedDateLe l ∧
      l.Perm ((if 1 < ([c9row1] : List SRow).length then ([c9row1] : List SRow).drop 1
          else [c9row1]).filterMap (parseScheduleRow 20020701 20030630)) ∧
      (∀ t ∈ l, 20020701 ≤ t.date ∧ t.date ≤ 20030630) :=
  schedule_extraction_range_sorted [c9row1] _ _ 20020701 20030630 rfl rfl (by omega)

/-- C9 counterexample: `c9row1` parses to a valid in-range tournament, yet
on the two-row table `[c9row1, c9row2]` — where both rows are valid data
rows — the parser returns only the second row's tournament, because the
first row is always skipped as a presumed header. -/
theorem schedule_extraction_counterexample :
    parseScheduleRow 20020701 20030630 c9row1 =
      some ⟨20020905, ("Liga 1".data), ("t1.aspx".data)⟩ ∧
    extract_series_tournaments [c9row1, c9row2] ("01.07.2002".data) ("30.06.2003".data) =
      Except.ok [⟨20021012, ("Liga 2".data), ("t2.aspx".data)⟩] :=
  ⟨rfl, rfl⟩

/-! ## C4: placements returned by the result parser -/

theorem dictInsert_mem {m : PlacementMap} {k : PyStr} {v : Int} {q : PyStr × Int}
    (hq : q ∈ dictInsert m k v) : q ∈ m ∨ q = (k, v) := by
  unfold dictInsert at hq
  split at hq
  · obtain ⟨w, hw, hwq⟩ := List.mem_map.mp hq
    by_cases hk : w.1 = k
    · right
      rw [if_pos hk] at hwq
      exact hwq.symm
    · left
      rw [if_neg hk] at hwq
      exact hwq ▸ hw
  · rcases List.mem_append.mp hq with h | h
    · exact Or.inl h
    · right
      simpa using h

theorem extract_fold_mem :
    ∀ (l : List RRow) (acc : PlacementMap) (q : PyStr × Int),
      q ∈ l.foldl (fun acc r =>
        match parseResultRow r with
        | some w => dictInsert acc w.1 w.2
        | none => acc) acc →
      q ∈ acc ∨ ∃ r ∈ l, parseResultRow r = some q := by
  intro l
  induction l with
  | nil =>
    intro acc q h
    exact Or.inl h
  | cons r rest ih =>
    intro acc q h
    rw [List.foldl_cons] at h
    rcases ih _ q h with h2 | ⟨r2, hr2, hp2⟩
    · have h3 : q ∈ (match parseResultRow r with
        | some w => dictInsert acc w.1 w.2
        | none => acc) := h2
      rcases hpr : parseResultRow r with _ | ⟨w1, w2⟩
      · rw [hpr] at h3
        exact Or.inl h3
      · rw [hpr] at h3
        rcases dictInsert_mem h3 with h4 | h4
        · exact Or.inl h4
        · refine Or.inr ⟨r, List.mem_cons_self _ _, ?_⟩
          rw [hpr, h4]
    · exact Or.inr ⟨r2, List.mem_cons_of_mem _ hr2, hp2⟩

/-- C4 (amended): every placement in the map returned by
`extract_tournament_results` is the integer token parsed from the leading
cells of some data row, so whenever every parsable row of the located
table carries a token `≥ 1` all returned placements are `≥ 1`; the parser
itself does not validate positivity, so zero or negative tokens are
recorded as placements unchanged. -/
theorem result_placements_positive_of_tokens (rows : List RRow)
    (hpos : ∀ r ∈ dataRows rows,
      (parseResultRow r).all (fun q => decide (1 ≤ q.2)) = true) :
    ∀ res, extract_tournament_results (some rows) = Except.ok res →
      ∀ q ∈ res, 1 ≤ q.2 := by
  intro res hres q hq
  have hres2 : res = extractResultsFromTable rows :=
    (Except.ok.inj hres).symm
  subst hres2
  unfold extractResultsFromTable at hq
  rcases extract_fold_mem _ _ _ hq with h | ⟨r, hr, hp⟩
  · cases h
  · have hall := hpos r hr
    rw [hp] at hall
    simpa using hall

/-- Witness for C4 on a one-row table whose placement token is `"1."`. -/
theorem result_placements_positive_witness :
    extract_tournament_results (some [c4posRow]) =
      Except.ok [(("Kari Nordmann".data), 1)] ∧
    (1 : Int) ≤ 1 :=
  ⟨rfl, result_placements_positive_of_tokens [c4posRow] (by decide) _ rfl
    (("Kari Nordmann".data), 1) (by decide)⟩

/-- C4 counterexample: a data row whose first cell holds the token `"0"`
and which has a player-profile link yields the placement `0 < 1` in the
returned map, so the parser does not guarantee positive placements. -/
theorem result_placements_counterexample :
    extract_tournament_results (some [c4zeroRow]) =
      Except.ok [(("Nils Navn".data), 0)] ∧
    ¬ (1 ≤ (0 : Int)) :=
  ⟨rfl, by decide⟩

end Tabell
